import Mathlib

/-!
Verification development for the DICOM-to-PDF converter core
(`app/models.py`, `app/dicomweb_utils.py`, `app/image_utils.py`).

The Python code is shallowly embedded: pydicom `Dataset` objects become a
record of the optional attributes the code reads; numpy arrays become a
shape plus a flat list of rationals; fallible code returns `Except`;
Python `dict`s (which preserve insertion order) become association lists.
Machine floats are modelled by `ℚ`; Python ints by `ℤ`.
-/

deriving instance DecidableEq for Except

/-- Model of a pydicom `Dataset` as consumed by this repository.

Each `Option` field models `hasattr`: `none` means the attribute is absent.
`imagePositionPatient`: the attribute value is a multi-value list whose
elements may fail `float()` conversion (inner `none`).
`instanceNumber`: present value that parses to an int (`some (some n)`),
present but unparsable (`some none`), or absent.
`idStr` models `str(id(ds))`, the per-object identity string used as the
fallback tertiary sort key; it is fixed for a given object within a run.
`pixelData` models the `pixel_array` property: `none` means accessing it
raises (decode failure). `windowCenter`/`windowWidth` values can be scalar
or multi-valued, and each component may fail `float()` (inner `none`).
`rescaleSlope`/`rescaleIntercept`: present value convertible by `float()`
or not. `colorLut` models the outcome of the external
`pydicom.apply_color_lut` call: `some a` if it succeeds with array `a`,
`none` if it raises. -/
structure NDArray where
  shape : List Nat
  data : List ℚ
  isUint8 : Bool
deriving DecidableEq

/-- Model of a Python number attribute that may be scalar or a list
(pydicom multi-value); each entry is `some q` when `float()` succeeds. -/
inductive PyNum where
  | scalar (v : Option ℚ)
  | vals (vs : List (Option ℚ))
deriving DecidableEq

structure Dataset where
  imagePositionPatient : Option (List (Option ℚ)) := none
  instanceNumber : Option (Option ℤ) := none
  filename : Option String := none
  idStr : String := ""
  seriesInstanceUID : Option String := none
  seriesDescription : Option String := none
  modality : Option String := none
  patientName : Option String := none
  patientID : Option String := none
  studyDate : Option String := none
  accessionNumber : Option String := none
  studyDescription : Option String := none
  pixelData : Option NDArray := none
  photometricInterpretation : Option String := none
  numberOfFrames : Option ℤ := none
  windowCenter : Option PyNum := none
  windowWidth : Option PyNum := none
  rescaleSlope : Option (Option ℚ) := none
  rescaleIntercept : Option (Option ℚ) := none
  colorLut : Option NDArray := none
deriving DecidableEq

/-! ## models.py: sort key of `DicomSeries.sort_instances` -/

/-- Primary key: `ImagePositionPatient[2]` parsed as float, defaulting to
`0.0` when the attribute is absent, falsy (empty), out of range, or
unparsable (`models.py` lines 32-37). -/
def zPos (ds : Dataset) : ℚ :=
  match ds.imagePositionPatient with
  | none => 0
  | some [] => 0
  | some ipp =>
    match ipp.getD 2 none with
    | some q => q
    | none => 0

/-- Secondary key: `int(InstanceNumber)`, defaulting to `0` when absent or
unparsable (`models.py` lines 40-45). -/
def instanceNum (ds : Dataset) : ℤ :=
  match ds.instanceNumber with
  | some (some n) => n
  | _ => 0

/-- Tertiary key: `getattr(ds, filename, str(id(ds)))`
(`models.py` line 48). -/
def tertKey (ds : Dataset) : String :=
  ds.filename.getD ds.idStr

/-- The tuple `(z_pos, instance_num, filename)` returned by `sort_key`. -/
structure SortKey where
  z : ℚ
  num : ℤ
  tert : String
deriving DecidableEq

def sortKey (ds : Dataset) : SortKey :=
  ⟨zPos ds, instanceNum ds, tertKey ds⟩

/-- Lexicographic non-strict order on sort-key tuples, as Python compares
the tuples returned by `sort_key`. -/
def keyLE (a b : SortKey) : Prop :=
  a.z < b.z ∨ (a.z = b.z ∧ (a.num < b.num ∨ (a.num = b.num ∧ a.tert ≤ b.tert)))

/-- Lexicographic strict order on sort-key tuples. -/
def keyLT (a b : SortKey) : Prop :=
  a.z < b.z ∨ (a.z = b.z ∧ (a.num < b.num ∨ (a.num = b.num ∧ a.tert < b.tert)))

instance (a b : SortKey) : Decidable (keyLE a b) :=
  decidable_of_iff
    (a.z < b.z ∨ (a.z = b.z ∧ (a.num < b.num
      ∨ (a.num = b.num ∧ a.tert.toList ≤ b.tert.toList)))) (by
    unfold keyLE
    rw [String.le_iff_toList_le])

instance (a b : SortKey) : Decidable (keyLT a b) :=
  decidable_of_iff
    (a.z < b.z ∨ (a.z = b.z ∧ (a.num < b.num
      ∨ (a.num = b.num ∧ a.tert.toList < b.tert.toList)))) (by
    unfold keyLT
    rw [String.lt_iff_toList_lt])

theorem keyLE_refl (a : SortKey) : keyLE a a :=
  Or.inr ⟨rfl, Or.inr ⟨rfl, le_refl _⟩⟩

theorem keyLE_total (a b : SortKey) : keyLE a b ∨ keyLE b a := by
  rcases lt_trichotomy a.z b.z with h | h | h
  · exact Or.inl (Or.inl h)
  · rcases lt_trichotomy a.num b.num with h2 | h2 | h2
    · exact Or.inl (Or.inr ⟨h, Or.inl h2⟩)
    · rcases le_total a.tert b.tert with h3 | h3
      · exact Or.inl (Or.inr ⟨h, Or.inr ⟨h2, h3⟩⟩)
      · exact Or.inr (Or.inr ⟨h.symm, Or.inr ⟨h2.symm, h3⟩⟩)
    · exact Or.inr (Or.inr ⟨h.symm, Or.inl h2⟩)
  · exact Or.inr (Or.inl h)

theorem keyLE_trans {a b c : SortKey} (hab : keyLE a b) (hbc : keyLE b c) :
    keyLE a c := by
  rcases hab with h1 | ⟨hz1, h1⟩
  · rcases hbc with h2 | ⟨hz2, _⟩
    · exact Or.inl (h1.trans h2)
    · exact Or.inl (hz2 ▸ h1)
  · rcases hbc with h2 | ⟨hz2, h2⟩
    · exact Or.inl (hz1 ▸ h2)
    · refine Or.inr ⟨hz1.trans hz2, ?_⟩
      rcases h1 with h1 | ⟨hn1, h1⟩
      · rcases h2 with h2 | ⟨hn2, _⟩
        · exact Or.inl (h1.trans h2)
        · exact Or.inl (hn2 ▸ h1)
      · rcases h2 with h2 | ⟨hn2, h2⟩
        · exact Or.inl (hn1 ▸ h2)
        · exact Or.inr ⟨hn1.trans hn2, h1.trans h2⟩

theorem keyLT_asymm {a b : SortKey} (hab : keyLT a b) (hba : keyLT b a) :
    False := by
  rcases hab with h1 | ⟨hz1, h1⟩
  · rcases hba with h2 | ⟨hz2, _⟩
    · exact absurd (h1.trans h2) (lt_irrefl _)
    · exact absurd h1 (hz2 ▸ lt_irrefl _)
  · rcases hba with h2 | ⟨hz2, h2⟩
    · exact absurd h2 (hz1 ▸ lt_irrefl _)
    · rcases h1 with h1 | ⟨hn1, h1⟩
      · rcases h2 with h2 | ⟨hn2, _⟩
        · exact absurd (h1.trans h2) (lt_irrefl _)
        · exact absurd h1 (hn2 ▸ lt_irrefl _)
      · rcases h2 with h2 | ⟨hn2, h2⟩
        · exact absurd h2 (hn1 ▸ lt_irrefl _)
        · exact absurd (h1.trans h2) (lt_irrefl _)

theorem keyLE_ne_imp_lt {a b : SortKey} (h : keyLE a b) (hne : a ≠ b) :
    keyLT a b := by
  rcases h with h1 | ⟨hz, h1⟩
  · exact Or.inl h1
  · refine Or.inr ⟨hz, ?_⟩
    rcases h1 with h1 | ⟨hn, h1⟩
    · exact Or.inl h1
    · refine Or.inr ⟨hn, lt_of_le_of_ne h1 ?_⟩
      intro ht
      rcases a with ⟨az, an, att⟩
      rcases b with ⟨bz, bn, btt⟩
      simp_all

/-- The relation Python uses between instances when sorting by `sort_key`. -/
def dsLE (a b : Dataset) : Prop :=
  keyLE (sortKey a) (sortKey b)

/-- Strict version of `dsLE`. -/
def dsLT (a b : Dataset) : Prop :=
  keyLT (sortKey a) (sortKey b)

instance : DecidableRel dsLE := fun a b => by
  unfold dsLE; exact inferInstance

instance : DecidableRel dsLT := fun a b => by
  unfold dsLT; exact inferInstance

instance : IsTotal Dataset dsLE :=
  ⟨fun a b => keyLE_total (sortKey a) (sortKey b)⟩

instance : IsTrans Dataset dsLE :=
  ⟨fun _ _ _ hab hbc => keyLE_trans hab hbc⟩

/-- `self.instances.sort(key=sort_key)`: Python `list.sort` is a stable
sort by the key tuple; it is modelled by the stable `List.insertionSort`
under `dsLE`, which computes the same (unique) stable-sorted permutation. -/
def sortInstancesList (l : List Dataset) : List Dataset :=
  List.insertionSort dsLE l

/-! ## models.py: `DicomSeries` and `DicomStudy` -/

structure DicomSeries where
  series_uid : String
  series_description : String
  instances : List Dataset
  modality : String
deriving DecidableEq

/-- `DicomSeries.__init__` (`models.py` lines 16-20). -/
def DicomSeries.new (series_uid : String) (series_description : String) :
    DicomSeries :=
  ⟨series_uid, series_description, [], ""⟩

/-- `DicomSeries.add_instance` (`models.py` lines 22-26): append the
dataset; set `modality` when it is still falsy and the dataset carries
`Modality`. -/
def DicomSeries.add_instance (s : DicomSeries) (ds : Dataset) : DicomSeries :=
  { s with
    instances := s.instances ++ [ds]
    modality :=
      match s.modality, ds.modality with
      | "", some m => m
      | m, _ => m }

/-- `DicomSeries.sort_instances` (`models.py` lines 28-52). -/
def DicomSeries.sort_instances (s : DicomSeries) : DicomSeries :=
  { s with instances := sortInstancesList s.instances }

/-- First-write-wins update used for every study-level descriptive field:
`if not self.f and hasattr(ds, A): self.f = str(ds.A)`. An absent
attribute leaves the field; a falsy (empty) current value is replaced by
the carried value, even when that value is itself empty. -/
def firstWrite (cur : String) (v : Option String) : String :=
  if cur = "" then
    match v with
    | some s => s
    | none => cur
  else cur

structure DicomStudy where
  study_uid : String
  series : List (String × DicomSeries)
  patient_name : String
  patient_id : String
  study_date : String
  accession_number : String
  study_description : String
deriving DecidableEq

/-- `DicomStudy.__init__` (`models.py` lines 58-65). -/
def DicomStudy.new (study_uid : String) : DicomStudy :=
  ⟨study_uid, [], "", "", "", "", ""⟩

/-- `DicomStudy.add_instance` (`models.py` lines 67-87): route the dataset
into the series bucket keyed by `getattr(ds, SeriesInstanceUID, UNKNOWN)`, creating the bucket on first sight (Python dicts preserve
insertion order, modelled by the association list), then update the
study-level descriptive fields first-write-wins. -/
def DicomStudy.add_instance (st : DicomStudy) (ds : Dataset) : DicomStudy :=
  let series_uid := ds.seriesInstanceUID.getD "UNKNOWN"
  let series1 :=
    if (st.series.lookup series_uid).isSome then st.series
    else st.series ++
      [(series_uid, DicomSeries.new series_uid (ds.seriesDescription.getD ""))]
  let series2 := series1.map
    (fun p => if p.1 = series_uid then (p.1, p.2.add_instance ds) else p)
  { study_uid := st.study_uid
    series := series2
    patient_name := firstWrite st.patient_name ds.patientName
    patient_id := firstWrite st.patient_id ds.patientID
    study_date := firstWrite st.study_date ds.studyDate
    accession_number := firstWrite st.accession_number ds.accessionNumber
    study_description := firstWrite st.study_description ds.studyDescription }

/-- `DicomStudy.finalize` (`models.py` lines 89-94): sort every series. -/
def DicomStudy.finalize (st : DicomStudy) : DicomStudy :=
  { st with series := st.series.map (fun p => (p.1, p.2.sort_instances)) }

/-! ## dicomweb_utils.py -/

/-- `optimize_max_workers` (`dicomweb_utils.py` lines 124-142). -/
def optimize_max_workers (total_instances requested_workers : ℤ) : ℤ :=
  if total_instances ≤ 2 then 1
  else if total_instances ≤ 10 then min 2 requested_workers
  else if total_instances ≤ 50 then min 4 requested_workers
  else min 8 requested_workers

/-- Outcome of one WADO binary-instance HTTP request: transport failure
(including timeout), or an HTTP status together with the result of
`pydicom.dcmread` on the body (`none` when decoding raises). -/
inductive WadoResponse where
  | transportError
  | status (code : Nat) (body : Option Dataset)
deriving DecidableEq

/-- The fallible body of `download_dicom_instance` (`dicomweb_utils.py`
lines 83-118): `get_dicom_wado_url` raises when the URL is unconfigured;
then a non-200 status raises `HTTPError`, a decode failure raises, and a
200 response with a decodable body yields the dataset. -/
def downloadCore (url : Option String) (resp : WadoResponse) :
    Except String Dataset :=
  match url with
  | none => .error "DICOM_WADO_URL environment variable not configured or empty"
  | some _ =>
    match resp with
    | .transportError => .error "transport error"
    | .status code body =>
      if code = 200 then
        match body with
        | some ds => .ok ds
        | none => .error "decode error"
      else .error "HTTP error"

/-- `download_dicom_instance` (`dicomweb_utils.py` lines 77-122): the whole
body sits in one `try`, whose `except` logs and returns `None`. `net`
models the single HTTP request issued for the given
(studyUID, seriesUID, objectUID) triple; it is consulted exactly once and
no retry exists. -/
def download_dicom_instance (url : Option String)
    (net : String → String → String → WadoResponse)
    (study_uid series_uid sop_uid : String) : Option Dataset :=
  match downloadCore url (net study_uid series_uid sop_uid) with
  | .ok ds => some ds
  | .error _ => none

/-! Metadata-response model: `{ studies: [ { study_iuid, series: [
{ series_iuid, instances: [ { sop_iuid } ] } ] } ] }`, every key optional
(`dict.get`). -/

structure InstanceData where
  sop_iuid : Option String
deriving DecidableEq

structure SeriesData where
  series_iuid : Option String
  instances : Option (List InstanceData)
deriving DecidableEq

structure StudyData where
  study_iuid : Option String
  series : Option (List SeriesData)
deriving DecidableEq

structure StudyMetadata where
  studies : Option (List StudyData)
deriving DecidableEq

/-- Python truthiness for an optional string: `None` and `""` are falsy
(the code guards `if not study_uid`, `if not series_uid`, `if sop_uid`). -/
def optTruthy (o : Option String) : Option String :=
  match o with
  | some s => if s = "" then none else some s
  | none => none

/-- Number of instances counted by lines 174-177 of `dicomweb_utils.py`,
using `.get` defaults throughout. -/
def countInstances (md : StudyMetadata) : Nat :=
  ((md.studies.getD []).map (fun sd =>
    ((sd.series.getD []).map (fun ser => (ser.instances.getD []).length)).sum)).sum

/-- The successful downloads of one series in declared order: each
instance entry with a truthy `sop_iuid` is fetched, failures are dropped
(`dicomweb_utils.py` lines 246-255; the parallel branch lines 225-245
submits exactly the same set of requests). -/
def seriesDownloads (url : Option String)
    (net : String → String → String → WadoResponse)
    (study_uid series_uid : String) (instances : List InstanceData) :
    List Dataset :=
  instances.filterMap (fun idata =>
    match optTruthy idata.sop_iuid with
    | none => none
    | some sop => download_dicom_instance url net study_uid series_uid sop)

/-- One iteration of the series loop (`dicomweb_utils.py` lines 206-274).
When `max_workers > 1` and the series declares at least 2 instances, the
downloads run on a thread pool and are collected in completion order,
modelled by the `reorder` function applied to the successful downloads
(theorems about this code assume `reorder` permutes its input); otherwise
they run sequentially in declared order. The successes are then fed to
`DicomStudy.add_instance` in that arrival order. -/
def processSeries (url : Option String)
    (net : String → String → String → WadoResponse) (workers : ℤ)
    (reorder : List Dataset → List Dataset) (study_uid : String)
    (st : DicomStudy) (sd : SeriesData) : DicomStudy :=
  match optTruthy sd.series_iuid with
  | none => st
  | some series_uid =>
    let instances := sd.instances.getD []
    let seq := seriesDownloads url net study_uid series_uid instances
    let downloaded := if 1 < workers ∧ 2 ≤ instances.length then reorder seq else seq
    downloaded.foldl DicomStudy.add_instance st

/-- `studies[study_uid] = dicom_study` on a Python dict: replace an
existing binding in place, else append. -/
def listUpsert (l : List (String × DicomStudy)) (k : String) (v : DicomStudy) :
    List (String × DicomStudy) :=
  if (l.lookup k).isSome then l.map (fun p => if p.1 = k then (k, v) else p)
  else l ++ [(k, v)]

/-- One iteration of the study loop (`dicomweb_utils.py` lines 193-282):
skip studies without a truthy `study_iuid`; process every series; keep the
study only if at least one series bucket was created, finalizing it. -/
def processStudy (url : Option String)
    (net : String → String → String → WadoResponse) (workers : ℤ)
    (reorder : List Dataset → List Dataset)
    (acc : List (String × DicomStudy)) (sd : StudyData) :
    List (String × DicomStudy) :=
  match optTruthy sd.study_iuid with
  | none => acc
  | some study_uid =>
    let st := (sd.series.getD []).foldl
      (processSeries url net workers reorder study_uid)
      (DicomStudy.new study_uid)
    if st.series.isEmpty then acc
    else listUpsert acc study_uid st.finalize

/-- `process_dicom_wado_study` (`dicomweb_utils.py` lines 144-308), from
the point where the metadata response is in hand: the configuration check
and the metadata fetch of lines 163-168 are modelled by the `url` and
`metadata` arguments. Worker count is optimized from the total instance
count; a metadata tree without the top-level `studies` key raises
`ValueError` (line 190); otherwise every study is processed and the
resulting mapping — possibly empty — is returned. -/
def process_dicom_wado_study (url : Option String)
    (net : String → String → String → WadoResponse)
    (reorder : List Dataset → List Dataset)
    (metadata : StudyMetadata) (max_workers : ℤ) :
    Except String (List (String × DicomStudy)) :=
  let total : ℤ := (countInstances metadata : ℤ)
  let workers := optimize_max_workers total max_workers
  match metadata.studies with
  | none => .error "Invalid metadata structure: missing studies key"
  | some sl => .ok (sl.foldl (processStudy url net workers reorder) [])

/-! ## image_utils.py -/

/-- `pixel_array.min()`; raises on an empty array. -/
def NDArray.minVal (a : NDArray) : Except String ℚ :=
  match a.data with
  | [] => .error "zero-size array reduction"
  | x :: xs => .ok (xs.foldl min x)

/-- `pixel_array.max()`; raises on an empty array. -/
def NDArray.maxVal (a : NDArray) : Except String ℚ :=
  match a.data with
  | [] => .error "zero-size array reduction"
  | x :: xs => .ok (xs.foldl max x)

/-- `np.percentile(data, q)` with the default linear interpolation:
sort ascending, take position `q/100 * (n-1)`, interpolate between the
neighbouring entries. Raises on an empty array. -/
def percentile (data : List ℚ) (q : ℚ) : Except String ℚ :=
  match List.insertionSort (fun a b : ℚ => a ≤ b) data with
  | [] => .error "zero-size array percentile"
  | d :: ds =>
    let s := d :: ds
    let n : Nat := s.length
    let pos : ℚ := q * ((n : ℚ) - 1) / 100
    let i : Nat := pos.floor.toNat
    let frac : ℚ := pos - (i : ℚ)
    let lo := s.getD i d
    let hi := s.getD (i + 1) lo
    .ok (lo + frac * (hi - lo))

/-- `auto_window` (`image_utils.py` lines 74-93): percentile-based center
and width, with the width floored via `max(1, max - min)` when below 1;
on a percentile failure the `except` arm falls back to plain min-max,
which itself raises on an empty array. -/
def auto_window (arr : NDArray) : Except String (ℚ × ℚ) :=
  match percentile arr.data 2, percentile arr.data 98 with
  | .ok p2, .ok p98 =>
    let window_center := (p2 + p98) / 2
    let window_width := p98 - p2
    if window_width < 1 then
      match arr.maxVal, arr.minVal with
      | .ok mx, .ok mn => .ok (window_center, max 1 (mx - mn))
      | _, _ => .error "auto_window failed on empty array"
    else .ok (window_center, window_width)
  | _, _ =>
    match arr.minVal, arr.maxVal with
    | .ok mn, .ok mx => .ok ((mn + mx) / 2, max 1 (mx - mn))
    | _, _ => .error "auto_window failed on empty array"

/-- `astype(np.uint8)` on a float value: truncate toward zero, wrap
modulo 256 (all call sites feed values already clipped to `[0, 255]`). -/
def toUint8 (x : ℚ) : ℚ :=
  (((if 0 ≤ x then x.floor else x.ceil) % 256 : ℤ) : ℚ)

/-- `apply_rescale` (`image_utils.py` lines 31-43): skip the multiply-add
when slope is 1 and intercept is 0; when `float()` on either raises, the
`except` arm returns the array unchanged. -/
def apply_rescale (arr : NDArray) (ds : Dataset) : NDArray :=
  let slope := ds.rescaleSlope.getD (some 1)
  let intercept := ds.rescaleIntercept.getD (some 0)
  if slope = some 1 ∧ intercept = some 0 then arr
  else
    match slope, intercept with
    | some s, some i => ⟨arr.shape, arr.data.map (fun x => x * s + i), false⟩
    | _, _ => arr

/-- `apply_window` (`image_utils.py` lines 46-71): clip to the window,
rescale the window to `[0, 255]` (flat 128 when the window is empty), and
cast to uint8. The operations in the `try` block are total on the model,
so the defensive `except` arm is unreachable. -/
def apply_window (arr : NDArray) (window_center window_width : ℚ) : NDArray :=
  let window_min := window_center - window_width / 2
  let window_max := window_center + window_width / 2
  let clipped := arr.data.map (fun x => max window_min (min window_max x))
  let scaled : List ℚ :=
    if window_max ≠ window_min then
      clipped.map (fun x => (x - window_min) / (window_max - window_min) * 255)
    else arr.data.map (fun _ => 128)
  ⟨arr.shape, scaled.map toUint8, true⟩

/-- Output of the pipeline: a PIL image as mode, (width, height), flat
pixel data. -/
structure PILImage where
  mode : String
  size : Nat × Nat
  data : List ℚ
deriving DecidableEq

/-- The fallback raster of the `except` arm of `dicom_to_pil`:
`Image.new(L, (512, 512), 128)`. -/
def blankImage : PILImage :=
  ⟨"L", (512, 512), List.replicate (512 * 512) 128⟩

/-- Metadata dict attached by `dicom_to_pil`: on success the four keys
`window_center`, `window_width`, `photometric`, `frame_index`; on the
placeholder path a single `error` key. -/
inductive PilMetadata where
  | ok (window_center window_width : Option ℚ) (photometric : String)
      (frame_index : Nat)
  | err (msg : String)
deriving DecidableEq

/-- Models `getattr(dataset, PhotometricInterpretation, MONOCHROME2)`. -/
def getPhotometric (ds : Dataset) : String :=
  ds.photometricInterpretation.getD "MONOCHROME2"

/-- `pixel_array[frame_index]`: drop the leading axis, slice the flat
data. -/
def ndFrame (a : NDArray) (i : Nat) : NDArray :=
  match a.shape with
  | [] => a
  | _ :: rest =>
    let sz := rest.prod
    ⟨rest, (a.data.drop (i * sz)).take sz, a.isUint8⟩

/-- First value of a possibly multi-valued window attribute (`wc = wc[0]`
when list-valued, raising `IndexError` on an empty list), before `float()`
conversion. -/
def unwrapFirst : PyNum → Except String (Option ℚ)
  | .scalar v => .ok v
  | .vals [] => .error "IndexError"
  | .vals (v :: _) => .ok v

/-- Window-parameter resolution (`image_utils.py` lines 137-154): both
attributes must be present; `wc[0]` and `ww[0]` are unwrapped first, then
`float(wc)` and `float(ww)` run in that order; the `except` arm keeps
whatever was assigned before the failing step, so a failure at `float(ww)`
leaves the already-assigned center in place. -/
def readWindowParams (ds : Dataset) : Option ℚ × Option ℚ :=
  match ds.windowCenter, ds.windowWidth with
  | some wcv, some wwv =>
    match unwrapFirst wcv, unwrapFirst wwv with
    | .ok wcr, .ok wwr =>
      match wcr with
      | none => (none, none)
      | some wc =>
        match wwr with
        | none => (some wc, none)
        | some ww => (some wc, some ww)
    | _, _ => (none, none)
  | _, _ => (none, none)

/-- `Image.fromarray(arr, mode=L)`: requires a 2-D uint8 buffer; PIL
sizes are (width, height). -/
def imageFromArrayL (a : NDArray) : Except String PILImage :=
  match a.shape with
  | [h, w] =>
    if a.isUint8 then .ok ⟨"L", (w, h), a.data⟩
    else .error "cannot handle this data type"
  | _ => .error "fromarray mode L expects a 2-D array"

/-- `Image.fromarray(arr, mode=RGB)`: requires an (h, w, 3) uint8
buffer. -/
def imageFromArrayRGB (a : NDArray) : Except String PILImage :=
  match a.shape with
  | [h, w, 3] =>
    if a.isUint8 then .ok ⟨"RGB", (w, h), a.data⟩
    else .error "cannot handle this data type"
  | _ => .error "fromarray mode RGB expects an (h, w, 3) array"

/-- Min-max normalization to uint8 used for non-uint8 color buffers
(`image_utils.py` lines 186-193 and 231-237): single global min/max; a
flat buffer is cast directly; an empty buffer raises (numpy `min`). -/
def normalizeToUint8 (arr : NDArray) : Except String NDArray :=
  match arr.minVal, arr.maxVal with
  | .ok mn, .ok mx =>
    if mn < mx then
      .ok ⟨arr.shape, arr.data.map (fun x => toUint8 ((x - mn) / (mx - mn) * 255)), true⟩
    else .ok ⟨arr.shape, arr.data.map toUint8, true⟩
  | _, _ => .error "zero-size array reduction"

/-- `255 - pixel_array` on the windowed uint8 buffer (MONOCHROME1
inversion). -/
def invert255 (a : NDArray) : NDArray :=
  ⟨a.shape, a.data.map (fun x => 255 - x), a.isUint8⟩

/-- YCbCr→RGB conversion of `image_utils.py` lines 203-219, applied
per-pixel on the interleaved (h, w, 3) buffer: recenter Cb/Cr by 128,
apply the reference matrix, clip to `[0, 255]`, cast to uint8. -/
def ybrTriples : List ℚ → List ℚ
  | y :: cb :: cr :: rest =>
    let cbc := cb - 128
    let crc := cr - 128
    let r := toUint8 (max 0 (min 255 (y + 1.402 * crc)))
    let g := toUint8 (max 0 (min 255 (y - 0.344136 * cbc - 0.714136 * crc)))
    let b := toUint8 (max 0 (min 255 (y + 1.772 * cbc)))
    r :: g :: b :: ybrTriples rest
  | rest => rest

def ybrToRgb (a : NDArray) : NDArray :=
  ⟨a.shape, ybrTriples a.data, true⟩

/-- The grayscale pipeline shared by the MONOCHROME branch (with optional
inversion), the PALETTE COLOR fallback and the unknown-tag fallback
(`image_utils.py` lines 157-175, 242-247, 249-256): rescale, resolve or
auto-compute the window, apply it, optionally invert, build a mode-L
image; the resolved window parameters land in the metadata. -/
def monoPipeline (pa : NDArray) (ds : Dataset) (wc ww : Option ℚ)
    (inv : Bool) : Except String (PILImage × Option ℚ × Option ℚ) := do
  let arr := apply_rescale pa ds
  let cw ← match wc, ww with
    | some c, some w => Except.ok (c, w)
    | _, _ => auto_window arr
  let arr2 := apply_window arr cw.1 cw.2
  let arr3 := if inv then invert255 arr2 else arr2
  let img ← imageFromArrayL arr3
  return (img, some cw.1, some cw.2)

/-- The `try` block of the PALETTE COLOR branch (`image_utils.py` lines
227-239): external LUT application (oracle `colorLut`), dtype conversion,
RGB image construction. -/
def paletteTry (ds : Dataset) : Except String PILImage := do
  match ds.colorLut with
  | none => Except.error "color LUT failed"
  | some lut => do
    let arr ← if lut.isUint8 then pure lut else normalizeToUint8 lut
    imageFromArrayRGB arr

/-- The `try` block of `dicom_to_pil` (`image_utils.py` lines 108-272):
decode the pixel buffer, extract the requested frame when the declared
frame count exceeds 1 (an index at or past the leading axis raises
`ValueError`), resolve window parameters, and dispatch on the photometric
interpretation. Any `Except.error` models an exception reaching the
function boundary. -/
def dicomToPilCore (ds : Dataset) (frame_index : Nat) :
    Except String (PILImage × Option ℚ × Option ℚ) := do
  match ds.pixelData with
  | none => Except.error "unable to decode pixel data"
  | some pa0 => do
    let photometric := getPhotometric ds
    let num_frames : ℤ := ds.numberOfFrames.getD 1
    let sel ←
      if 1 < num_frames then
        match pa0.shape with
        | [] => Except.error "tuple index out of range"
        | s0 :: _ =>
          if s0 ≤ frame_index then
            Except.error "Frame index out of range"
          else Except.ok (ndFrame pa0 frame_index)
      else Except.ok pa0
    let wp := readWindowParams ds
    if photometric = "MONOCHROME1" ∨ photometric = "MONOCHROME2" then
      monoPipeline sel ds wp.1 wp.2 (photometric = "MONOCHROME1")
    else if photometric = "RGB" ∨ photometric = "YBR_FULL" ∨
        photometric = "YBR_FULL_422" then
      match sel.shape with
      | [_, _, c] =>
        if c ≠ 3 then Except.error "Invalid RGB image shape"
        else do
          let arr ← if sel.isUint8 then pure sel else normalizeToUint8 sel
          if photometric = "RGB" then do
            let img ← imageFromArrayRGB arr
            return (img, wp.1, wp.2)
          else do
            let img ← imageFromArrayRGB (ybrToRgb arr)
            return (img, wp.1, wp.2)
      | _ => Except.error "Invalid RGB image shape"
    else if photometric = "PALETTE COLOR" then
      match paletteTry ds with
      | .ok img => return (img, wp.1, wp.2)
      | .error _ => monoPipeline sel ds wp.1 wp.2 false
    else
      monoPipeline sel ds wp.1 wp.2 false

/-- `dicom_to_pil` (`image_utils.py` lines 96-278): the guaranteed
boundary. Success packs the image with the four-key metadata; any raised
error is converted into the 512x512 gray placeholder plus an error-key
metadata dict. -/
def dicom_to_pil (ds : Dataset) (frame_index : Nat) :
    PILImage × PilMetadata :=
  match dicomToPilCore ds frame_index with
  | .ok (img, wc, ww) =>
    (img, .ok wc ww (getPhotometric ds) frame_index)
  | .error e => (blankImage, .err e)

/-! ## Claim C3: worker-count policy -/

/-- C3: for every `totalInstances ≥ 1` and every `requestedWorkers`,
`optimize_max_workers` returns 1 when `totalInstances ≤ 2`,
`min 2 requested` for 3..10, `min 4 requested` for 11..50 and
`min 8 requested` above 50. -/
theorem optimize_max_workers_policy (total_instances requested_workers : ℤ)
    (h : 1 ≤ total_instances) :
    (total_instances ≤ 2 →
      optimize_max_workers total_instances requested_workers = 1)
    ∧ (3 ≤ total_instances → total_instances ≤ 10 →
      optimize_max_workers total_instances requested_workers
        = min 2 requested_workers)
    ∧ (11 ≤ total_instances → total_instances ≤ 50 →
      optimize_max_workers total_instances requested_workers
        = min 4 requested_workers)
    ∧ (50 < total_instances →
      optimize_max_workers total_instances requested_workers
        = min 8 requested_workers) := by
  unfold optimize_max_workers
  refine ⟨fun h1 => ?_, fun h1 h2 => ?_, fun h1 h2 => ?_, fun h1 => ?_⟩ <;>
    split_ifs <;> first | rfl | (exfalso; omega)

/-- Witness for C3 at `totalInstances = 7`, `requestedWorkers = 4`. -/
theorem optimize_max_workers_policy_witness :
    (1 : ℤ) ≤ 7 ∧
    (((7 : ℤ) ≤ 2 → optimize_max_workers 7 4 = 1)
    ∧ ((3 : ℤ) ≤ 7 → (7 : ℤ) ≤ 10 → optimize_max_workers 7 4 = min 2 4)
    ∧ ((11 : ℤ) ≤ 7 → (7 : ℤ) ≤ 50 → optimize_max_workers 7 4 = min 4 4)
    ∧ ((50 : ℤ) < 7 → optimize_max_workers 7 4 = min 8 4)) :=
  ⟨by decide, optimize_max_workers_policy 7 4 (by decide)⟩

/-! ## Claim C7: download totality -/

/-- C7: `download_dicom_instance` either returns the dataset decoded from
a 200 response (which also requires a configured URL), or returns `none`;
it consults the network oracle for its single request and never raises. -/
theorem download_dicom_instance_total (url : Option String)
    (net : String → String → String → WadoResponse)
    (study_uid series_uid sop_uid : String) :
    download_dicom_instance url net study_uid series_uid sop_uid = none
    ∨ ∃ ds, download_dicom_instance url net study_uid series_uid sop_uid = some ds
        ∧ net study_uid series_uid sop_uid = WadoResponse.status 200 (some ds)
        ∧ url ≠ none := by
  unfold download_dicom_instance downloadCore
  rcases url with _ | u
  · exact Or.inl rfl
  · rcases hr : net study_uid series_uid sop_uid with _ | ⟨code, body⟩
    · exact Or.inl rfl
    · by_cases hc : code = 200
      · subst hc
        rcases body with _ | ds
        · exact Or.inl rfl
        · exact Or.inr ⟨ds, rfl, rfl, by simp⟩
      · left
        simp [hc]

/-! ## Claim C4: the pixel pipeline never raises -/

/-- C4: for every dataset and frame index, `dicom_to_pil` returns either
the fixed 512x512 neutral-gray placeholder paired with error-key metadata,
or a converted image whose metadata carries the window center, window
width, photometric tag and frame index. -/
theorem dicom_to_pil_never_raises (ds : Dataset) (frame_index : Nat) :
    (∃ e, dicom_to_pil ds frame_index =
      (⟨"L", (512, 512), List.replicate (512 * 512) 128⟩, PilMetadata.err e))
    ∨ (∃ img wc ww, dicom_to_pil ds frame_index =
      (img, PilMetadata.ok wc ww (getPhotometric ds) frame_index)) := by
  unfold dicom_to_pil
  rcases h : dicomToPilCore ds frame_index with e | ⟨img, wc, ww⟩
  · exact Or.inl ⟨e, rfl⟩
  · exact Or.inr ⟨img, wc, ww, rfl⟩

/-! ## Claim C5: out-of-range frame index -/

/-- A well-formed single-frame dataset (no `NumberOfFrames` attribute, so
the declared frame count defaults to 1) with a 2x2 pixel buffer. -/
def cexFrameDs : Dataset :=
  { pixelData := some ⟨[2, 2], [0, 1, 2, 3], false⟩ }

unseal Rat.mul Rat.add Rat.sub Rat.inv Rat.ofScientific in
/-- C5 counterexample: `cexFrameDs` declares frame count 1 and the frame
index 1 is at the declared count, yet `dicom_to_pil` succeeds with
four-key metadata instead of returning the error placeholder — the code
only range-checks when the declared count exceeds 1. -/
theorem frame_index_at_declared_count_succeeds :
    cexFrameDs.numberOfFrames.getD 1 = 1
    ∧ (dicom_to_pil cexFrameDs 1).2
      = PilMetadata.ok (some (3 / 2)) (some (72 / 25)) "MONOCHROME2" 1 := by
  constructor
  · rfl
  · decide

/-- C5 amended: for datasets whose declared frame count exceeds 1 and
whose pixel buffer decodes, a frame index at or past the leading axis of the pixel array (or a rank-0 array) makes `dicom_to_pil` return the
placeholder raster with error metadata; the out-of-range access never
escapes as a fault. -/
theorem frame_index_out_of_range_placeholder (ds : Dataset) (idx : Nat)
    (arr : NDArray) (hpix : ds.pixelData = some arr)
    (hnf : 1 < ds.numberOfFrames.getD 1)
    (hoob : arr.shape = [] ∨ arr.shape.headD 0 ≤ idx) :
    ∃ e, dicom_to_pil ds idx = (blankImage, PilMetadata.err e) := by
  unfold dicom_to_pil dicomToPilCore
  rw [hpix]
  rcases hs : arr.shape with _ | ⟨s0, rest⟩
  · refine ⟨"tuple index out of range", ?_⟩
    simp only [if_pos hnf, hs]
    rfl
  · rcases hoob with h | h
    · rw [hs] at h; cases h
    · rw [hs] at h; simp at h
      refine ⟨"Frame index out of range", ?_⟩
      simp only [if_pos hnf, hs, if_pos h]
      rfl

/-- Witness for the amended C5: a declared 2-frame dataset with a
(2, 2, 2) buffer and frame index 5. -/
theorem frame_index_out_of_range_placeholder_witness :
    ((⟨[2, 2, 2], [0, 1, 2, 3, 4, 5, 6, 7], false⟩ : NDArray).shape = []
      ∨ (⟨[2, 2, 2], [0, 1, 2, 3, 4, 5, 6, 7], false⟩ : NDArray).shape.headD 0 ≤ 5)
    ∧ ∃ e, dicom_to_pil
        { pixelData := some ⟨[2, 2, 2], [0, 1, 2, 3, 4, 5, 6, 7], false⟩,
          numberOfFrames := some 2 } 5 = (blankImage, PilMetadata.err e) :=
  ⟨Or.inr (by decide),
    frame_index_out_of_range_placeholder _ 5 _ rfl (by decide) (Or.inr (by decide))⟩

/-! ## Claim C9: auto_window -/

/-- C9: when both percentiles are computable, `auto_window` returns
exactly `center = (p2 + p98) / 2` and `width = p98 - p2`, except that a
width below 1 is replaced by `max 1 (max - min)`; the returned width is
always at least 1. -/
theorem auto_window_formula (arr : NDArray) (p2 p98 mn mx : ℚ)
    (h2 : percentile arr.data 2 = .ok p2)
    (h98 : percentile arr.data 98 = .ok p98)
    (hmn : arr.minVal = .ok mn) (hmx : arr.maxVal = .ok mx) :
    auto_window arr = .ok ((p2 + p98) / 2,
      if p98 - p2 < 1 then max 1 (mx - mn) else p98 - p2)
    ∧ ∀ c w, auto_window arr = .ok (c, w) → 1 ≤ w := by
  have hmain : auto_window arr = .ok ((p2 + p98) / 2,
      if p98 - p2 < 1 then max 1 (mx - mn) else p98 - p2) := by
    simp only [auto_window, h2, h98, hmx, hmn]
    split_ifs with hw
    · rfl
    · rfl
  refine ⟨hmain, fun c w h => ?_⟩
  rw [hmain] at h
  have hw : w = if p98 - p2 < 1 then max 1 (mx - mn) else p98 - p2 := by
    injection h with h1
    exact (congrArg Prod.snd h1).symm
  rw [hw]
  split_ifs with hlt
  · exact le_max_left _ _
  · linarith [not_lt.mp hlt]

unseal Rat.mul Rat.add Rat.sub Rat.inv Rat.ofScientific in
/-- Witness for C9 on the pixel array `[0, 1, 2, 3]`: percentiles 3/50 and
147/50, window `(3/2, 72/25)`. -/
theorem auto_window_formula_witness :
    (percentile ([0, 1, 2, 3] : List ℚ) 2 = .ok (3 / 50)
      ∧ percentile ([0, 1, 2, 3] : List ℚ) 98 = .ok (147 / 50)
      ∧ NDArray.minVal ⟨[2, 2], [0, 1, 2, 3], false⟩ = .ok 0
      ∧ NDArray.maxVal ⟨[2, 2], [0, 1, 2, 3], false⟩ = .ok 3)
    ∧ (auto_window ⟨[2, 2], [0, 1, 2, 3], false⟩ = .ok ((3 / 50 + 147 / 50) / 2,
        if (147 : ℚ) / 50 - 3 / 50 < 1 then max 1 ((3 : ℚ) - 0) else 147 / 50 - 3 / 50)
      ∧ ∀ c w, auto_window ⟨[2, 2], [0, 1, 2, 3], false⟩ = .ok (c, w) → 1 ≤ w) :=
  ⟨⟨by decide, by decide, by decide, by decide⟩,
    auto_window_formula ⟨[2, 2], [0, 1, 2, 3], false⟩ (3 / 50) (147 / 50) 0 3
      (by decide) (by decide) (by decide) (by decide)⟩

/-! ## Claims C1 and C2: ordering of sort_instances -/

/-- Stability of the sort under any predicate all of whose members compare
equal-or-less with each other: the sorted list restricted to them is the
original list restricted to them. -/
theorem insertionSort_filter_of_all (l : List Dataset) (p : Dataset → Bool)
    (hp : ∀ a b, p a = true → p b = true → dsLE a b) :
    (List.insertionSort dsLE l).filter p = l.filter p := by
  have hpw : (l.filter p).Pairwise dsLE :=
    List.pairwise_of_forall_mem_list (fun a ha b hb =>
      hp a b (List.of_mem_filter ha) (List.of_mem_filter hb))
  have h2 : List.Sublist (l.filter p) (List.insertionSort dsLE l) :=
    List.sublist_insertionSort hpw (List.filter_sublist l)
  have h3 : (l.filter p).filter p = l.filter p :=
    List.filter_eq_self.mpr (fun a ha => List.of_mem_filter ha)
  have h4 : List.Sublist (l.filter p) ((List.insertionSort dsLE l).filter p) := by
    rw [← h3]; exact h2.filter p
  have h5 : ((List.insertionSort dsLE l).filter p).length = (l.filter p).length :=
    ((List.perm_insertionSort dsLE l).filter p).length_eq
  exact (h4.eq_of_length h5.symm).symm

/-- C2: `sort_instances` permutes the instance list into one sorted by the
composite key `(z_pos, instance_num, filename-or-id)` and, for every key
value, the instances carrying exactly that key keep their relative arrival
order (stability). -/
theorem sort_instances_stable_sort (s : DicomSeries) (k : SortKey) :
    s.sort_instances.instances.Perm s.instances
    ∧ s.sort_instances.instances.Sorted dsLE
    ∧ s.sort_instances.instances.filter (fun d => decide (sortKey d = k))
      = s.instances.filter (fun d => decide (sortKey d = k)) := by
  refine ⟨List.perm_insertionSort dsLE s.instances,
    List.sorted_insertionSort dsLE s.instances, ?_⟩
  refine insertionSort_filter_of_all s.instances _ (fun a b ha hb => ?_)
  have ha' : sortKey a = k := of_decide_eq_true ha
  have hb' : sortKey b = k := of_decide_eq_true hb
  unfold dsLE
  rw [ha', hb']
  exact keyLE_refl k

/-- Sorted with pairwise-distinct keys is strictly sorted. -/
theorem pairwiseLT_of_sorted_nodup (l : List Dataset)
    (hs : l.Pairwise dsLE) (hn : (l.map sortKey).Nodup) :
    l.Pairwise dsLT := by
  have hne : l.Pairwise (fun a b => sortKey a ≠ sortKey b) :=
    List.pairwise_map.mp hn
  exact (hs.and hne).imp (fun h => keyLE_ne_imp_lt h.1 h.2)

/-- C1 amended: when the composite sort keys of the instances of a series are
pairwise distinct, the sorted order after `sort_instances` is the same for
every arrival order of the same instances — in particular for the arrival
orders produced by 1 or N download workers. -/
theorem sort_instances_deterministic (s t : DicomSeries)
    (hperm : t.instances.Perm s.instances)
    (hnd : (s.instances.map sortKey).Nodup) :
    t.sort_instances.instances = s.sort_instances.instances := by
  have pt : (List.insertionSort dsLE t.instances).Perm s.instances :=
    (List.perm_insertionSort dsLE t.instances).trans hperm
  have ps : (List.insertionSort dsLE s.instances).Perm s.instances :=
    List.perm_insertionSort dsLE s.instances
  have ndt : ((List.insertionSort dsLE t.instances).map sortKey).Nodup :=
    (pt.map sortKey).nodup_iff.mpr hnd
  have nds : ((List.insertionSort dsLE s.instances).map sortKey).Nodup :=
    (ps.map sortKey).nodup_iff.mpr hnd
  have st : (List.insertionSort dsLE t.instances).Pairwise dsLT :=
    pairwiseLT_of_sorted_nodup _ (List.sorted_insertionSort dsLE t.instances) ndt
  have ss : (List.insertionSort dsLE s.instances).Pairwise dsLT :=
    pairwiseLT_of_sorted_nodup _ (List.sorted_insertionSort dsLE s.instances) nds
  haveI : IsAntisymm Dataset dsLT :=
    ⟨fun _ _ h1 h2 => (keyLT_asymm h1 h2).elim⟩
  exact List.eq_of_perm_of_sorted (pt.trans ps.symm) st ss

/-- Witness for the amended C1: two instances with distinct filenames
added in both orders. -/
theorem sort_instances_deterministic_witness :
    ((DicomSeries.new "S" "").add_instance { filename := some "b" }
        |>.add_instance { filename := some "a" }).instances.Perm
      ((DicomSeries.new "S" "").add_instance { filename := some "a" }
        |>.add_instance { filename := some "b" }).instances
    ∧ (((DicomSeries.new "S" "").add_instance { filename := some "a" }
        |>.add_instance { filename := some "b" }).instances.map sortKey).Nodup
    ∧ ((DicomSeries.new "S" "").add_instance { filename := some "b" }
        |>.add_instance { filename := some "a" }).sort_instances.instances
      = ((DicomSeries.new "S" "").add_instance { filename := some "a" }
        |>.add_instance { filename := some "b" }).sort_instances.instances :=
  ⟨by decide, by decide,
    sort_instances_deterministic _ _ (by decide) (by decide)⟩

/-- Two distinct instances carrying the same composite sort key: same
filename, same (absent) position and number, different patient name. -/
def cexTieA : Dataset := { filename := some "f", patientName := some "A" }

def cexTieB : Dataset := { filename := some "f", patientName := some "B" }

unseal Rat.mul Rat.add Rat.sub Rat.inv Rat.ofScientific in
/-- C1 counterexample: `cexTieA` and `cexTieB` are the same fixed set of
instances, but adding them in the two arrival orders (as different fetch
completion orders do) and finalizing yields two different instance
sequences — the composite key does not separate them, and the stable sort
preserves each arrival order. -/
theorem sort_order_depends_on_arrival :
    (((DicomSeries.new "S" "").add_instance cexTieB).add_instance cexTieA).instances.Perm
      (((DicomSeries.new "S" "").add_instance cexTieA).add_instance cexTieB).instances
    ∧ (((DicomSeries.new "S" "").add_instance cexTieB).add_instance cexTieA).sort_instances.instances
      ≠ (((DicomSeries.new "S" "").add_instance cexTieA).add_instance cexTieB).sort_instances.instances := by
  constructor
  · decide
  · decide

/-! ## Claim C8: study-level descriptive fields -/

/-- The first truthy (non-empty) value an instance of the list carries for
the attribute read by `f`, or `""` when none does. -/
def firstTruthy (f : Dataset → Option String) (l : List Dataset) : String :=
  (l.filterMap (fun d => optTruthy (f d))).headD ""

theorem firstWrite_ne {cur : String} (v : Option String) (h : cur ≠ "") :
    firstWrite cur v = cur :=
  if_neg h

theorem firstTruthy_cons (f : Dataset → Option String) (d : Dataset)
    (rest : List Dataset) :
    firstTruthy f (d :: rest)
      = match optTruthy (f d) with
        | some s => s
        | none => firstTruthy f rest := by
  unfold firstTruthy
  rcases h : optTruthy (f d) with _ | s <;> simp [List.filterMap_cons, h]

/-- Folding `add_instance` evolves each string field by `firstWrite`: the
final value is the start value of the field if non-empty, else the first truthy
value carried by the added instances. -/
theorem foldl_firstWrite (proj : DicomStudy → String)
    (fv : Dataset → Option String)
    (hstep : ∀ st d, proj (st.add_instance d) = firstWrite (proj st) (fv d)) :
    ∀ (l : List Dataset) (st : DicomStudy),
      proj (l.foldl DicomStudy.add_instance st)
        = if proj st = "" then firstTruthy fv l else proj st := by
  intro l
  induction l with
  | nil =>
    intro st
    show proj st = if proj st = "" then firstTruthy fv [] else proj st
    split_ifs with h
    · exact h
    · rfl
  | cons d rest ih =>
    intro st
    show proj (rest.foldl DicomStudy.add_instance (st.add_instance d)) = _
    rw [ih, hstep]
    by_cases h : proj st = ""
    · rw [if_pos h, firstTruthy_cons, h]
      rcases hv : fv d with _ | s
      · have hw : firstWrite "" none = "" := by simp [firstWrite]
        rw [hw, if_pos rfl]
        simp [optTruthy]
      · have hw : firstWrite "" (some s) = s := by simp [firstWrite]
        rw [hw]
        by_cases hs : s = ""
        · subst hs
          rw [if_pos rfl]
          simp [optTruthy]
        · rw [if_neg hs]
          simp [optTruthy, hs]
    · rw [if_neg h, firstWrite_ne (fv d) h, if_neg h]

/-- C8 amended: after any sequence of `add_instance` calls on a fresh
study, each descriptive field holds the first truthy (non-empty) value
carried for it — an instance that carries the attribute with an empty
value does not freeze the field, because the code re-tests Python
truthiness, not presence. -/
theorem study_fields_first_truthy (uid : String) (l : List Dataset) :
    (l.foldl DicomStudy.add_instance (DicomStudy.new uid)).patient_name
      = firstTruthy (fun d => d.patientName) l
    ∧ (l.foldl DicomStudy.add_instance (DicomStudy.new uid)).patient_id
      = firstTruthy (fun d => d.patientID) l
    ∧ (l.foldl DicomStudy.add_instance (DicomStudy.new uid)).study_date
      = firstTruthy (fun d => d.studyDate) l
    ∧ (l.foldl DicomStudy.add_instance (DicomStudy.new uid)).accession_number
      = firstTruthy (fun d => d.accessionNumber) l
    ∧ (l.foldl DicomStudy.add_instance (DicomStudy.new uid)).study_description
      = firstTruthy (fun d => d.studyDescription) l :=
  ⟨(foldl_firstWrite (fun st => st.patient_name) (fun d => d.patientName)
      (fun _ _ => rfl) l _).trans (if_pos rfl),
   (foldl_firstWrite (fun st => st.patient_id) (fun d => d.patientID)
      (fun _ _ => rfl) l _).trans (if_pos rfl),
   (foldl_firstWrite (fun st => st.study_date) (fun d => d.studyDate)
      (fun _ _ => rfl) l _).trans (if_pos rfl),
   (foldl_firstWrite (fun st => st.accession_number) (fun d => d.accessionNumber)
      (fun _ _ => rfl) l _).trans (if_pos rfl),
   (foldl_firstWrite (fun st => st.study_description) (fun d => d.studyDescription)
      (fun _ _ => rfl) l _).trans (if_pos rfl)⟩

/-- An instance carrying `PatientName` with the empty string. -/
def cexEmptyName : Dataset := { patientName := some "" }

/-- An instance carrying `PatientName` with a non-empty value. -/
def cexLaterName : Dataset := { patientName := some "B" }

/-- C8 counterexample: `cexEmptyName` is the first instance to carry the
patient-name attribute and populates the field (with `""`), but the later
`add_instance` call overwrites it because the guard is Python truthiness,
not first-presence. -/
theorem study_field_overwritten_after_first_carrier :
    cexEmptyName.patientName.isSome = true
    ∧ ((DicomStudy.new "S").add_instance cexEmptyName).patient_name = ""
    ∧ (((DicomStudy.new "S").add_instance cexEmptyName).add_instance
        cexLaterName).patient_name = "B" := by
  refine ⟨rfl, rfl, rfl⟩

/-! ## Claim C6: metadata contract of process_dicom_wado_study -/

/-- A series whose download list is empty leaves the study untouched. -/
theorem processSeries_no_downloads (url : Option String)
    (net : String → String → String → WadoResponse) (workers : ℤ)
    (reorder : List Dataset → List Dataset) (study_uid : String)
    (st : DicomStudy) (sd : SeriesData)
    (hre : ∀ L, List.Perm (reorder L) L)
    (h : ∀ se, optTruthy sd.series_iuid = some se →
      seriesDownloads url net study_uid se (sd.instances.getD []) = []) :
    processSeries url net workers reorder study_uid st sd = st := by
  unfold processSeries
  rcases hse : optTruthy sd.series_iuid with _ | se
  · rfl
  · have hd := h se hse
    have hr0 : reorder [] = [] := (hre []).eq_nil
    simp only [hd, hr0, ite_self, List.foldl_nil]

/-- Folding series with no downloads over any study is the identity. -/
theorem foldl_processSeries_id (url : Option String)
    (net : String → String → String → WadoResponse) (workers : ℤ)
    (reorder : List Dataset → List Dataset) (su : String)
    (hre : ∀ L, List.Perm (reorder L) L) :
    ∀ (ls : List SeriesData),
      (∀ ser ∈ ls, ∀ se, optTruthy ser.series_iuid = some se →
        seriesDownloads url net su se (ser.instances.getD []) = []) →
      ∀ st, ls.foldl (processSeries url net workers reorder su) st = st := by
  intro ls
  induction ls with
  | nil => intro _ st; rfl
  | cons a b ih =>
    intro hls st
    rw [List.foldl_cons,
      processSeries_no_downloads url net workers reorder su st a hre
        (fun se hse => hls a (List.mem_cons_self a b) se hse)]
    exact ih (fun ser hser se hse => hls ser (List.mem_cons_of_mem a hser) se hse) st

/-- Folding studies each of which yields no downloads keeps the result
mapping unchanged. -/
theorem foldl_processStudy_id (url : Option String)
    (net : String → String → String → WadoResponse) (workers : ℤ)
    (reorder : List Dataset → List Dataset)
    (hre : ∀ L, List.Perm (reorder L) L) :
    ∀ (sl : List StudyData),
      (∀ sd ∈ sl, ∀ su, optTruthy sd.study_iuid = some su →
        ∀ ser ∈ sd.series.getD [], ∀ se, optTruthy ser.series_iuid = some se →
          seriesDownloads url net su se (ser.instances.getD []) = []) →
      ∀ acc, sl.foldl (processStudy url net workers reorder) acc = acc := by
  intro sl
  induction sl with
  | nil => intro _ acc; rfl
  | cons sd rest ih =>
    intro h3 acc
    rw [List.foldl_cons]
    have hstep : processStudy url net workers reorder acc sd = acc := by
      unfold processStudy
      rcases hsu : optTruthy sd.study_iuid with _ | su
      · rfl
      · have hser : (sd.series.getD []).foldl
            (processSeries url net workers reorder su) (DicomStudy.new su)
            = DicomStudy.new su :=
          foldl_processSeries_id url net workers reorder su hre _
            (fun ser hser se hse =>
              h3 sd (List.mem_cons_self sd rest) su hsu ser hser se hse) _
        simp only [hser]
        rfl
    rw [hstep]
    exact ih (fun sd2 hm su hsu ser hser se hse =>
      h3 sd2 (List.mem_cons_of_mem sd hm) su hsu ser hser se hse) acc

/-- C6: a metadata response without the top-level `studies` key makes
`process_dicom_wado_study` raise; a response with the key but no
downloadable instance in any series of any study yields the empty result
mapping without raising. -/
theorem process_metadata_contract (url : Option String)
    (net : String → String → String → WadoResponse)
    (reorder : List Dataset → List Dataset) (max_workers : ℤ)
    (md1 md2 : StudyMetadata) (sl : List StudyData)
    (hre : ∀ L, List.Perm (reorder L) L)
    (h1 : md1.studies = none)
    (h2 : md2.studies = some sl)
    (h3 : ∀ sd ∈ sl, ∀ su, optTruthy sd.study_iuid = some su →
      ∀ ser ∈ sd.series.getD [], ∀ se, optTruthy ser.series_iuid = some se →
        seriesDownloads url net su se (ser.instances.getD []) = []) :
    (∃ e, process_dicom_wado_study url net reorder md1 max_workers
      = .error e)
    ∧ process_dicom_wado_study url net reorder md2 max_workers = .ok [] := by
  constructor
  · refine ⟨"Invalid metadata structure: missing studies key", ?_⟩
    unfold process_dicom_wado_study
    rw [h1]
  · unfold process_dicom_wado_study
    rw [h2]
    show Except.ok (sl.foldl (processStudy url net
      (optimize_max_workers ((countInstances md2 : ℕ) : ℤ) max_workers) reorder) [])
      = Except.ok []
    rw [foldl_processStudy_id url net _ reorder hre sl h3 []]

/-- Metadata response without the `studies` key. -/
def mdNoStudies : StudyMetadata := ⟨none⟩

/-- Metadata response with one study and one series that lists zero
instances. -/
def mdEmptySeries : StudyMetadata :=
  ⟨some [⟨some "S1", some [⟨some "SE1", some []⟩]⟩]⟩

/-- Network oracle on which every fetch fails at transport level. -/
def netDown : String → String → String → WadoResponse :=
  fun _ _ _ => WadoResponse.transportError

/-- Witness for C6: the two concrete metadata responses, an identity
completion order and an all-failing network. -/
theorem process_metadata_contract_witness :
    ((∀ L : List Dataset, List.Perm (id L) L)
      ∧ mdNoStudies.studies = none
      ∧ mdEmptySeries.studies = some [⟨some "S1", some [⟨some "SE1", some []⟩]⟩]
      ∧ (∀ sd ∈ [(⟨some "S1", some [⟨some "SE1", some []⟩]⟩ : StudyData)],
          ∀ su, optTruthy sd.study_iuid = some su →
          ∀ ser ∈ sd.series.getD [], ∀ se, optTruthy ser.series_iuid = some se →
            seriesDownloads (some "u") netDown su se (ser.instances.getD []) = []))
    ∧ ((∃ e, process_dicom_wado_study (some "u") netDown id mdNoStudies 4
        = .error e)
      ∧ process_dicom_wado_study (some "u") netDown id mdEmptySeries 4
        = .ok []) :=
  ⟨⟨fun L => List.Perm.refl L, rfl, rfl, by
      intro sd hsd su hsu ser hser se hse
      rcases List.mem_singleton.mp hsd with rfl
      rcases List.mem_singleton.mp hser with rfl
      rfl⟩,
    process_metadata_contract (some "u") netDown id 4 mdNoStudies mdEmptySeries
      [⟨some "S1", some [⟨some "SE1", some []⟩]⟩]
      (fun L => List.Perm.refl L) rfl rfl (by
        intro sd hsd su hsu ser hser se hse
        rcases List.mem_singleton.mp hsd with rfl
        rcases List.mem_singleton.mp hser with rfl
        rfl)⟩

/-! ## Claim C10: UNKNOWN series routing and no empty series -/

theorem lookup_map_update (l : List (String × DicomSeries)) (k : String)
    (ds : Dataset) :
    (l.map (fun p => if p.1 = k then (p.1, p.2.add_instance ds) else p)).lookup k
      = (l.lookup k).map (fun s => s.add_instance ds) := by
  induction l with
  | nil => rfl
  | cons p t ih =>
    obtain ⟨pk, pv⟩ := p
    rw [List.map_cons]
    by_cases h : pk = k
    · subst h
      rw [show (if (pk, pv).1 = pk then ((pk, pv).1, (pk, pv).2.add_instance ds)
          else (pk, pv)) = (pk, pv.add_instance ds) from if_pos rfl]
      simp [List.lookup, ih]
    · have hb : (k == pk) = false := beq_eq_false_iff_ne.mpr (Ne.symm h)
      rw [show (if (pk, pv).1 = k then ((pk, pv).1, (pk, pv).2.add_instance ds)
          else (pk, pv)) = (pk, pv) from if_neg h]
      simp [List.lookup, hb, ih]

theorem lookup_append_left_none (l1 l2 : List (String × DicomSeries))
    (k : String) (h : l1.lookup k = none) :
    (l1 ++ l2).lookup k = l2.lookup k := by
  induction l1 with
  | nil => rfl
  | cons p t ih =>
    obtain ⟨pk, pv⟩ := p
    cases hb : (k == pk) with
    | false =>
      simp only [List.lookup, hb] at h
      simp only [List.cons_append, List.lookup, hb]
      exact ih h
    | true =>
      simp only [List.lookup, hb] at h
      cases h

/-- Routing: `add_instance` always lands the dataset in the bucket keyed
by `getattr(ds, SeriesInstanceUID, UNKNOWN)`, creating it if needed. -/
theorem add_instance_series_lookup (st : DicomStudy) (ds : Dataset) :
    ∃ s, ((st.add_instance ds).series.lookup
        (ds.seriesInstanceUID.getD "UNKNOWN")) = some s
      ∧ ds ∈ s.instances := by
  unfold DicomStudy.add_instance
  by_cases hlk : (st.series.lookup (ds.seriesInstanceUID.getD "UNKNOWN")).isSome
  · rcases Option.isSome_iff_exists.mp hlk with ⟨s0, hs0⟩
    refine ⟨s0.add_instance ds, ?_, ?_⟩
    · simp only [if_pos hlk]
      rw [lookup_map_update, hs0]
      rfl
    · simp [DicomSeries.add_instance]
  · have hnone : st.series.lookup (ds.seriesInstanceUID.getD "UNKNOWN") = none :=
      Option.not_isSome_iff_eq_none.mp hlk
    refine ⟨(DicomSeries.new (ds.seriesInstanceUID.getD "UNKNOWN")
        (ds.seriesDescription.getD "")).add_instance ds, ?_, ?_⟩
    · simp only [if_neg hlk, List.map_append]
      rw [lookup_append_left_none _ _ _ (by rw [lookup_map_update, hnone]; rfl)]
      have he : (if ((ds.seriesInstanceUID.getD "UNKNOWN",
            DicomSeries.new (ds.seriesInstanceUID.getD "UNKNOWN")
              (ds.seriesDescription.getD "")).1
            = ds.seriesInstanceUID.getD "UNKNOWN")
          then ((ds.seriesInstanceUID.getD "UNKNOWN",
              DicomSeries.new (ds.seriesInstanceUID.getD "UNKNOWN")
                (ds.seriesDescription.getD "")).1,
            (ds.seriesInstanceUID.getD "UNKNOWN",
              DicomSeries.new (ds.seriesInstanceUID.getD "UNKNOWN")
                (ds.seriesDescription.getD "")).2.add_instance ds)
          else (ds.seriesInstanceUID.getD "UNKNOWN",
            DicomSeries.new (ds.seriesInstanceUID.getD "UNKNOWN")
              (ds.seriesDescription.getD "")))
          = (ds.seriesInstanceUID.getD "UNKNOWN",
            (DicomSeries.new (ds.seriesInstanceUID.getD "UNKNOWN")
              (ds.seriesDescription.getD "")).add_instance ds) := if_pos rfl
      rw [List.map_cons, List.map_nil, he]
      simp [List.lookup]
    · simp [DicomSeries.add_instance, DicomSeries.new]

/-- Invariant: every series bucket of the study is non-empty. -/
def studyNonEmpty (st : DicomStudy) : Prop :=
  ∀ p ∈ st.series, p.2.instances ≠ []

theorem add_instance_nonempty (st : DicomStudy) (ds : Dataset)
    (h : studyNonEmpty st) : studyNonEmpty (st.add_instance ds) := by
  intro p hp
  unfold DicomStudy.add_instance at hp
  simp only [] at hp
  rcases List.mem_map.mp hp with ⟨q, hq, hqe⟩
  by_cases hk : q.1 = ds.seriesInstanceUID.getD "UNKNOWN"
  · rw [if_pos hk] at hqe
    rw [← hqe]
    simp [DicomSeries.add_instance]
  · rw [if_neg hk] at hqe
    subst hqe
    by_cases hlk : (st.series.lookup (ds.seriesInstanceUID.getD "UNKNOWN")).isSome
    · rw [if_pos hlk] at hq
      exact h q hq
    · rw [if_neg hlk] at hq
      rcases List.mem_append.mp hq with hq1 | hq2
      · exact h q hq1
      · rcases List.mem_singleton.mp hq2 with rfl
        exact absurd rfl hk

theorem foldl_add_instance_nonempty (l : List Dataset) :
    ∀ (st : DicomStudy), studyNonEmpty st →
      studyNonEmpty (l.foldl DicomStudy.add_instance st) := by
  induction l with
  | nil => exact fun st h => h
  | cons d rest ih =>
    intro st h
    exact ih _ (add_instance_nonempty st d h)

theorem sort_instances_nonempty (s : DicomSeries) (h : s.instances ≠ []) :
    s.sort_instances.instances ≠ [] := by
  intro h0
  apply h
  have hp : (List.insertionSort dsLE s.instances).Perm s.instances :=
    List.perm_insertionSort dsLE s.instances
  rw [show s.sort_instances.instances = List.insertionSort dsLE s.instances
    from rfl] at h0
  rw [h0] at hp
  exact hp.symm.eq_nil

theorem finalize_nonempty (st : DicomStudy) (h : studyNonEmpty st) :
    studyNonEmpty st.finalize := by
  intro p hp
  unfold DicomStudy.finalize at hp
  simp only [] at hp
  rcases List.mem_map.mp hp with ⟨q, hq, hqe⟩
  subst hqe
  exact sort_instances_nonempty q.2 (h q hq)

theorem processSeries_nonempty (url : Option String)
    (net : String → String → String → WadoResponse) (workers : ℤ)
    (reorder : List Dataset → List Dataset) (study_uid : String)
    (st : DicomStudy) (sd : SeriesData) (h : studyNonEmpty st) :
    studyNonEmpty (processSeries url net workers reorder study_uid st sd) := by
  unfold processSeries
  rcases hse : optTruthy sd.series_iuid with _ | se
  · simp only [hse]
    exact h
  · simp only [hse]
    exact foldl_add_instance_nonempty _ st h

theorem foldl_processSeries_nonempty (url : Option String)
    (net : String → String → String → WadoResponse) (workers : ℤ)
    (reorder : List Dataset → List Dataset) (su : String) :
    ∀ (ls : List SeriesData) (st : DicomStudy), studyNonEmpty st →
      studyNonEmpty (ls.foldl (processSeries url net workers reorder su) st) := by
  intro ls
  induction ls with
  | nil => exact fun _ h => h
  | cons a b ih =>
    exact fun st h =>
      ih _ (processSeries_nonempty url net workers reorder su st a h)

theorem listUpsert_nonempty (acc : List (String × DicomStudy)) (k : String)
    (v : DicomStudy) (hacc : ∀ p ∈ acc, studyNonEmpty p.2)
    (hv : studyNonEmpty v) :
    ∀ p ∈ listUpsert acc k v, studyNonEmpty p.2 := by
  intro p hp
  unfold listUpsert at hp
  by_cases hl : (acc.lookup k).isSome
  · rw [if_pos hl] at hp
    rcases List.mem_map.mp hp with ⟨q, hq, hqe⟩
    by_cases hk : q.1 = k
    · rw [if_pos hk] at hqe
      rw [← hqe]
      exact hv
    · rw [if_neg hk] at hqe
      subst hqe
      exact hacc q hq
  · rw [if_neg hl] at hp
    rcases List.mem_append.mp hp with h1 | h2
    · exact hacc p h1
    · rcases List.mem_singleton.mp h2 with rfl
      exact hv

theorem processStudy_nonempty (url : Option String)
    (net : String → String → String → WadoResponse) (workers : ℤ)
    (reorder : List Dataset → List Dataset)
    (acc : List (String × DicomStudy)) (sd : StudyData)
    (hacc : ∀ p ∈ acc, studyNonEmpty p.2) :
    ∀ p ∈ processStudy url net workers reorder acc sd, studyNonEmpty p.2 := by
  unfold processStudy
  rcases hsu : optTruthy sd.study_iuid with _ | su
  · simp only [hsu]
    exact hacc
  · simp only [hsu]
    by_cases hempty : ((sd.series.getD []).foldl
        (processSeries url net workers reorder su) (DicomStudy.new su)).series.isEmpty
    · rw [if_pos hempty]
      exact hacc
    · rw [if_neg hempty]
      refine listUpsert_nonempty _ _ _ hacc ?_
      refine finalize_nonempty _ ?_
      refine foldl_processSeries_nonempty url net workers reorder su _ _ ?_
      intro p hp
      cases hp

theorem foldl_processStudy_nonempty (url : Option String)
    (net : String → String → String → WadoResponse) (workers : ℤ)
    (reorder : List Dataset → List Dataset) :
    ∀ (sl : List StudyData) (acc : List (String × DicomStudy)),
      (∀ p ∈ acc, studyNonEmpty p.2) →
      ∀ p ∈ sl.foldl (processStudy url net workers reorder) acc,
        studyNonEmpty p.2 := by
  intro sl
  induction sl with
  | nil => exact fun _ h => h
  | cons sd rest ih =>
    intro acc h
    exact ih _ (processStudy_nonempty url net workers reorder acc sd h)

theorem process_studies_nonempty (url : Option String)
    (net : String → String → String → WadoResponse)
    (reorder : List Dataset → List Dataset) (metadata : StudyMetadata)
    (max_workers : ℤ) (studies : List (String × DicomStudy))
    (hok : process_dicom_wado_study url net reorder metadata max_workers
      = .ok studies) :
    ∀ p ∈ studies, studyNonEmpty p.2 := by
  unfold process_dicom_wado_study at hok
  rcases hm : metadata.studies with _ | sl
  · rw [hm] at hok
    cases hok
  · simp only [hm] at hok
    injection hok with h
    rw [← h]
    exact foldl_processStudy_nonempty url net _ reorder sl []
      (fun p hp => absurd hp (List.not_mem_nil p))

/-- C10: a dataset without `SeriesInstanceUID` is routed into the shared
series bucket keyed by the literal string `UNKNOWN`; and since every
series bucket is created with its first instance and instances are never
removed, every series of every study returned by
`process_dicom_wado_study` holds at least one instance. -/
theorem unknown_series_and_no_empty_series
    (st : DicomStudy) (ds : Dataset) (hds : ds.seriesInstanceUID = none)
    (url : Option String) (net : String → String → String → WadoResponse)
    (reorder : List Dataset → List Dataset) (metadata : StudyMetadata)
    (max_workers : ℤ) (studies : List (String × DicomStudy))
    (uid : String) (stdy : DicomStudy) (suid : String) (ser : DicomSeries)
    (hok : process_dicom_wado_study url net reorder metadata max_workers
      = .ok studies)
    (hmem : (uid, stdy) ∈ studies) (hser : (suid, ser) ∈ stdy.series) :
    (∃ s, ((st.add_instance ds).series.lookup "UNKNOWN") = some s
      ∧ ds ∈ s.instances)
    ∧ ser.instances ≠ [] := by
  constructor
  · simpa [hds] using add_instance_series_lookup st ds
  · exact process_studies_nonempty url net reorder metadata max_workers
      studies hok (uid, stdy) hmem (suid, ser) hser

/-- Network oracle on which every fetch succeeds with a minimal dataset. -/
def netOk : String → String → String → WadoResponse :=
  fun _ _ _ => WadoResponse.status 200 (some {})

/-- Metadata response with one study, one series, one instance. -/
def mdOne : StudyMetadata :=
  ⟨some [⟨some "S1", some [⟨some "SE1", some [⟨some "I1"⟩]⟩]⟩]⟩

/-- The series bucket the fetched instance lands in. -/
def serOne : DicomSeries := ⟨"UNKNOWN", "", [{}], ""⟩

/-- The finalized study produced from `mdOne` over `netOk`. -/
def stOne : DicomStudy := ⟨"S1", [("UNKNOWN", serOne)], "", "", "", "", ""⟩

/-- Witness for C10: a complete concrete run of the pipeline yielding one
study with the single non-empty `UNKNOWN` series. -/
theorem unknown_series_and_no_empty_series_witness :
    (({} : Dataset).seriesInstanceUID = none
      ∧ process_dicom_wado_study (some "u") netOk id mdOne 4
        = .ok [("S1", stOne)]
      ∧ ("S1", stOne) ∈ [("S1", stOne)]
      ∧ ("UNKNOWN", serOne) ∈ stOne.series)
    ∧ ((∃ s, (((DicomStudy.new "X").add_instance {}).series.lookup "UNKNOWN")
        = some s ∧ ({} : Dataset) ∈ s.instances)
      ∧ serOne.instances ≠ []) :=
  ⟨⟨rfl, rfl, List.mem_singleton_self _, List.mem_singleton_self _⟩,
    unknown_series_and_no_empty_series (DicomStudy.new "X") {} rfl (some "u")
      netOk id mdOne 4 [("S1", stOne)] "S1" stOne "UNKNOWN" serOne rfl
      (List.mem_singleton_self _) (List.mem_singleton_self _)⟩
